import Mathlib

/-!
Shallow embedding of the Daubechies-wavelet basis-function class `BF_DbWavelets`
(PLUMED VES module, file src/unnamed/part_000) together with theorems checking the
natural-language specification against it.

Real numbers of the C++ code (`double`) are modelled as rationals, so that all
definitions are executable and all concrete evaluations are decidable.  The grid
collaborator `waveletGrid_->getValueAndDerivatives` (an opaque tabulated-function
service) is modelled as an abstract function `grid : ℚ → ℚ × ℚ` returning the
interpolated value and derivative at a point.  The caller-supplied output vectors
`values` and `derivs` are Lean lists; the C++ write `values[i] = v` is `List.set`
(an out-of-range write, undefined behaviour in C++, leaves the list unchanged in
the embedding).
-/

namespace PlumedVes

/-- Modelled from the spec: `DbWaveletGrid::setupGrid` is not under src/.  The cascade
construction repeatedly doubles the grid size, starting from the support width, until
it reaches the requested size `R`; `gridDoubling R s` is that loop, returning the
smallest `s * 2 ^ n` that is at least `R` (and `0` in the degenerate case `s = 0`). -/
def gridDoubling (R s : ℕ) : ℕ :=
  if s = 0 then 0
  else if R ≤ s then s
  else gridDoubling R (2 * s)
termination_by R - s
decreasing_by
  rename_i h0 h
  exact Nat.sub_lt_sub_left (Nat.lt_of_not_le h) (by omega)

/-- Modelled from the spec: the true grid size chosen by `DbWaveletGrid::setupGrid`
for order `N` and requested size `R` is the smallest `(2N-1) * 2^n` at least `R`
(the support width of the order-`N` scaling function is `2N-1`). -/
def trueGridSize (N R : ℕ) : ℕ := gridDoubling R (2 * N - 1)

/-- State of a `BF_DbWavelets` object after its constructor ran
(src/unnamed/part_000, lines 90-120).  The getters of the `BasisFunctions` base
class (`getOrder`, `getNumberOfBasisFunctions`, `intervalMin`, `intervalMax`,
`intervalDerivf`, `intrinsicIntervalMax`), whose implementation is not under src/,
are modelled as field reads of the state the constructor set up. -/
structure BFState where
  order : ℕ
  numberOfBasisFunctions : ℕ
  intervalMin : ℚ
  intervalMax : ℚ
  intervalDerivf : ℚ
  intrinsicIntervalMax : ℚ
  trueGridSize : ℕ
  reportedGridSize : Option ℕ
deriving DecidableEq

/-- Embedding of the constructor `BF_DbWavelets::BF_DbWavelets` (lines 90-120) for a
non-periodic interval `[mn, mx]`, order `N` and requested grid size `R`:
line 94 sets the number of basis functions to `3N - 1`;
line 100 builds the wavelet grid (spec-modelled `trueGridSize`);
lines 101-102 report the actual grid size back to the configuration layer
(`addKeywordToList`) exactly when it differs from the literal `1000`
(`reportedGridSize = some G` models that call, `none` models its absence);
line 112 sets the intrinsic interval to `[0, numberOfBasisFunctions - 1]`.
`intervalDerivf` is Modelled from the spec: the base class stores the
interval-to-intrinsic derivative factor `(3N-2)/(mx-mn)`. -/
def construct (N R : ℕ) (mn mx : ℚ) : BFState :=
  let nb := 3 * N - 1
  let G := trueGridSize N R
  { order := N
    numberOfBasisFunctions := nb
    intervalMin := mn
    intervalMax := mx
    intervalDerivf := ((nb - 1 : ℕ) : ℚ) / (mx - mn)
    intrinsicIntervalMax := ((nb - 1 : ℕ) : ℚ)
    trueGridSize := G
    reportedGridSize := if G ≠ 1000 then some G else none }

/-- Modelled from the spec: `BasisFunctions::checkIfArgumentInsideInterval` (base
class, not under src/) returns the argument unchanged for a non-periodic basis set
and flags whether it lies inside the user-visible interval `[min, max]`
(`insideRange = false` exactly when the argument is strictly outside). -/
def checkIfArgumentInsideInterval (bf : BFState) (arg : ℚ) : ℚ × Bool :=
  (arg, decide (bf.intervalMin ≤ arg ∧ arg ≤ bf.intervalMax))

/-- Local coordinate of basis index `i` (lines 133-135): the translation is
`int k = i - getOrder()` (mathematical integer difference: the unsigned wrap-around
followed by the conversion to `int` recovers `i - N` for all realistic sizes), and
the argument is scaled and shifted as `x = (arg - intervalMin()) * intervalDerivf() - k`. -/
def localCoord (bf : BFState) (arg : ℚ) (i : ℕ) : ℚ :=
  (arg - bf.intervalMin) * bf.intervalDerivf - (((i : ℤ) - (bf.order : ℤ) : ℤ) : ℚ)

/-- Branch condition of line 137: `x < 0 || x > intrinsicIntervalMax()`.  When it
holds the entry is zeroed with no grid lookup; otherwise the grid is consulted. -/
def outsideSupport (bf : BFState) (arg : ℚ) (i : ℕ) : Bool :=
  decide (localCoord bf arg i < 0) || decide (bf.intrinsicIntervalMax < localCoord bf arg i)

/-- Body of one loop iteration of `getAllValues` (lines 137-146), producing the
`(values[i], derivs[i])` pair for basis index `i ≥ 1`: zero outside the branch
condition, otherwise the tabulated value and the tabulated derivative rescaled by
`intervalDerivf()` (chain rule, line 145). -/
def translateVal (bf : BFState) (grid : ℚ → ℚ × ℚ) (arg : ℚ) (i : ℕ) : ℚ × ℚ :=
  if outsideSupport bf arg i then (0, 0)
  else ((grid (localCoord bf arg i)).1, (grid (localCoord bf arg i)).2 * bf.intervalDerivf)

/-- Result of one `getAllValues` call: the two reference out-parameters and the two
caller-supplied vectors as they stand when the function returns. -/
@[ext]
structure GAV where
  argT : ℚ
  insideRange : Bool
  values : List ℚ
  derivs : List ℚ
deriving DecidableEq

/-- Write `f i` into position `i` of the list for every index in `idxs`, in order
(the update pattern of the evaluation loop). -/
def setAll (f : ℕ → ℚ) (idxs : List ℕ) (l : List ℚ) : List ℚ :=
  idxs.foldl (fun acc i => acc.set i (f i)) l

/-- Embedding of `BF_DbWavelets::getAllValues` (lines 123-149).
Line 127 maps and flags the argument; lines 129-130 set the constant basis function;
the loop of lines 131-147 writes every index `1 .. numberOfBasisFunctions - 1`;
line 148 zeroes the whole derivative vector when the argument was outside the
interval.  The size assertions of lines 124-125 are commented out in the source, so
no size check appears here and the function is total for lists of any length. -/
def getAllValues (bf : BFState) (grid : ℚ → ℚ × ℚ) (arg : ℚ)
    (values derivs : List ℚ) : GAV :=
  let ai := checkIfArgumentInsideInterval bf arg
  let values1 := values.set 0 1
  let derivs1 := derivs.set 0 0
  let idxs := List.range' 1 (bf.numberOfBasisFunctions - 1)
  let values2 := setAll (fun i => (translateVal bf grid arg i).1) idxs values1
  let derivs2 := setAll (fun i => (translateVal bf grid arg i).2) idxs derivs1
  let derivs3 := if ai.2 then derivs2 else derivs2.map (fun _ => 0)
  ⟨ai.1, ai.2, values2, derivs3⟩

/-- Modelled from the spec: the size contract the specification demands of
`getAllValues` — an assertion-level failure (here `none`) whenever the
caller-supplied vectors are not pre-sized to the number of basis functions.  This is
the claim-side definition, to be compared with `getAllValues`, which performs no
such check. -/
def getAllValuesChecked (bf : BFState) (grid : ℚ → ℚ × ℚ) (arg : ℚ)
    (values derivs : List ℚ) : Option GAV :=
  if values.length = bf.numberOfBasisFunctions ∧ derivs.length = bf.numberOfBasisFunctions
  then some (getAllValues bf grid arg values derivs) else none

/-- Sample abstract tabulated-function collaborator used in concrete witnesses:
value `x + 1` and derivative `2` at every point `x` (nowhere zero on the support,
so a performed lookup is visible in the output). -/
def gridSample : ℚ → ℚ × ℚ := fun x => (x + 1, 2)

end PlumedVes

namespace PlumedVes

theorem gridDoubling_spec (R s : ℕ) (hs : 0 < s) :
    ∃ n : ℕ, gridDoubling R s = s * 2 ^ n ∧ R ≤ s * 2 ^ n ∧
      ∀ m : ℕ, R ≤ s * 2 ^ m → n ≤ m := by
  refine gridDoubling.induct R
    (fun s => 0 < s → ∃ n : ℕ, gridDoubling R s = s * 2 ^ n ∧ R ≤ s * 2 ^ n ∧
      ∀ m : ℕ, R ≤ s * 2 ^ m → n ≤ m) ?_ ?_ ?_ s hs
  · intro h; omega
  · intro t h0 hle _
    refine ⟨0, ?_, by simpa using hle, fun m _ => Nat.zero_le m⟩
    rw [gridDoubling]
    simp [h0, hle]
  · intro t h0 hgt ih _
    obtain ⟨n, h1, h2, h3⟩ := ih (by omega)
    refine ⟨n + 1, ?_, ?_, ?_⟩
    · rw [gridDoubling]
      simp only [h0, if_false, hgt]
      rw [h1]; ring
    · calc R ≤ 2 * t * 2 ^ n := h2
        _ = t * 2 ^ (n + 1) := by ring
    · intro m hm
      match m with
      | 0 =>
        simp only [pow_zero, mul_one] at hm
        omega
      | m' + 1 =>
        have hm' : R ≤ 2 * t * 2 ^ m' := by
          rw [pow_succ] at hm; nlinarith [hm]
        exact Nat.succ_le_succ (h3 m' hm')

theorem trueGridSize_4_1000 : trueGridSize 4 1000 = 1792 := by
  show gridDoubling 1000 7 = 1792
  rw [gridDoubling]; norm_num
  rw [gridDoubling]; norm_num
  rw [gridDoubling]; norm_num
  rw [gridDoubling]; norm_num
  rw [gridDoubling]; norm_num
  rw [gridDoubling]; norm_num
  rw [gridDoubling]; norm_num
  rw [gridDoubling]; norm_num
  rw [gridDoubling]; norm_num

theorem trueGridSize_63_900 : trueGridSize 63 900 = 1000 := by
  show gridDoubling 900 125 = 1000
  rw [gridDoubling]; norm_num
  rw [gridDoubling]; norm_num
  rw [gridDoubling]; norm_num
  rw [gridDoubling]; norm_num

theorem getD_set_ne (l : List ℚ) (i j : ℕ) (a d : ℚ) (h : i ≠ j) :
    (l.set i a).getD j d = l.getD j d := by
  simp [List.getD_eq_getElem?_getD, List.getElem?_set_ne h]

theorem getD_set_self (l : List ℚ) (i : ℕ) (a d : ℚ) (h : i < l.length) :
    (l.set i a).getD i d = a := by
  simp [List.getD_eq_getElem?_getD, List.getElem?_set_self h]

theorem length_setAll (f : ℕ → ℚ) (idxs : List ℕ) :
    ∀ l : List ℚ, (setAll f idxs l).length = l.length := by
  induction idxs with
  | nil => intro l; rfl
  | cons i t ih =>
    intro l
    show (setAll f t (l.set i (f i))).length = l.length
    rw [ih, List.length_set]

theorem setAll_getD_of_lt (f : ℕ → ℚ) (idxs : List ℕ) (j : ℕ) (d : ℚ)
    (h : ∀ i ∈ idxs, j < i) :
    ∀ l : List ℚ, (setAll f idxs l).getD j d = l.getD j d := by
  induction idxs with
  | nil => intro l; rfl
  | cons i t ih =>
    intro l
    show (setAll f t (l.set i (f i))).getD j d = l.getD j d
    rw [ih (fun i hi => h i (List.mem_cons_of_mem _ hi)),
      getD_set_ne _ _ _ _ _ (Nat.ne_of_gt (h i (List.mem_cons_self i t)))]

theorem setAll_range'_getD (f : ℕ → ℚ) (d : ℚ) :
    ∀ (m a j : ℕ) (l : List ℚ), a ≤ j → j < a + m → j < l.length →
      (setAll f (List.range' a m) l).getD j d = f j := by
  intro m
  induction m with
  | zero => intro a j l h1 h2 _; omega
  | succ m ih =>
    intro a j l h1 h2 hlen
    rw [List.range'_succ]
    show (setAll f (List.range' (a + 1) m) (l.set a (f a))).getD j d = f j
    rcases Nat.eq_or_lt_of_le h1 with heq | hlt
    · subst heq
      rw [setAll_getD_of_lt]
      · exact getD_set_self l a (f a) d hlen
      · intro i hi
        have := List.mem_range'_1.mp hi
        omega
    · exact ih (a + 1) j (l.set a (f a)) hlt (by omega) (by simpa [List.length_set] using hlen)

theorem getD_map_zero (l : List ℚ) (j : ℕ) (d : ℚ) (h : j < l.length) :
    (l.map (fun _ => (0 : ℚ))).getD j d = 0 := by
  simp [List.getD_eq_getElem?_getD, List.getElem?_map, List.getElem?_eq_getElem h,
    List.getElem?_replicate, h]

end PlumedVes

namespace PlumedVes

theorem getAllValues_argT (bf : BFState) (grid : ℚ → ℚ × ℚ) (arg : ℚ)
    (v d : List ℚ) : (getAllValues bf grid arg v d).argT = arg := rfl

theorem getAllValues_insideRange (bf : BFState) (grid : ℚ → ℚ × ℚ) (arg : ℚ)
    (v d : List ℚ) :
    (getAllValues bf grid arg v d).insideRange
      = decide (bf.intervalMin ≤ arg ∧ arg ≤ bf.intervalMax) := rfl

theorem getAllValues_values_length (bf : BFState) (grid : ℚ → ℚ × ℚ) (arg : ℚ)
    (v d : List ℚ) : (getAllValues bf grid arg v d).values.length = v.length := by
  show (setAll _ _ (v.set 0 1)).length = v.length
  rw [length_setAll, List.length_set]

theorem getAllValues_derivs_length (bf : BFState) (grid : ℚ → ℚ × ℚ) (arg : ℚ)
    (v d : List ℚ) : (getAllValues bf grid arg v d).derivs.length = d.length := by
  simp only [getAllValues]
  split <;> simp [length_setAll, List.length_set]

theorem getAllValues_values_getD (bf : BFState) (grid : ℚ → ℚ × ℚ) (arg : ℚ)
    (v d : List ℚ) (hv : v.length = bf.numberOfBasisFunctions)
    (j : ℕ) (hj : j < bf.numberOfBasisFunctions) :
    (getAllValues bf grid arg v d).values.getD j 0 =
      if j = 0 then 1 else (translateVal bf grid arg j).1 := by
  show (setAll (fun i => (translateVal bf grid arg i).1)
      (List.range' 1 (bf.numberOfBasisFunctions - 1)) (v.set 0 1)).getD j 0 = _
  rcases Nat.eq_zero_or_pos j with h0 | hpos
  · subst h0
    rw [setAll_getD_of_lt]
    · rw [getD_set_self _ _ _ _ (by omega)]
      simp
    · intro i hi
      have := List.mem_range'_1.mp hi
      omega
  · rw [setAll_range'_getD _ _ (bf.numberOfBasisFunctions - 1) 1 j (v.set 0 1)
      hpos (by omega) (by rw [List.length_set]; omega)]
    rw [if_neg (by omega)]

theorem getAllValues_derivs_getD (bf : BFState) (grid : ℚ → ℚ × ℚ) (arg : ℚ)
    (v d : List ℚ) (hd : d.length = bf.numberOfBasisFunctions)
    (j : ℕ) (hj : j < bf.numberOfBasisFunctions) :
    (getAllValues bf grid arg v d).derivs.getD j 0 =
      if (checkIfArgumentInsideInterval bf arg).2 then
        (if j = 0 then 0 else (translateVal bf grid arg j).2)
      else 0 := by
  simp only [getAllValues]
  split
  · rcases Nat.eq_zero_or_pos j with h0 | hpos
    · subst h0
      rw [setAll_getD_of_lt]
      · rw [getD_set_self _ _ _ _ (by omega)]
        simp
      · intro i hi
        have := List.mem_range'_1.mp hi
        omega
    · rw [setAll_range'_getD _ _ (bf.numberOfBasisFunctions - 1) 1 j (d.set 0 0)
        hpos (by omega) (by rw [List.length_set]; omega)]
      rw [if_neg (by omega)]
  · exact getD_map_zero _ _ _ (by rw [length_setAll, List.length_set]; omega)

end PlumedVes

namespace PlumedVes

/-- C1 (theorem at the failing input): for order `N = 2` on the interval `[0, 1]`
(scale 4), the query `arg = 7/8` gives basis index `i = 2` (translation `k = 0`) the
local coordinate `x = 7/2`, which lies outside the wavelet support `[0, 2N-1) = [0, 3)`;
the claim demands `values[2] = derivs[2] = 0` with no tabulated-function lookup, but the
branch condition of line 137 compares `x` against `intrinsicIntervalMax() = 3N-2 = 4`
instead, so the lookup branch is taken: a tabulated-function lookup is performed at
`x = 7/2` (beyond the tabulated domain) and its value (`9/2` for the sample grid) is
stored in `values[2]` instead of `0`. -/
theorem claim1_lookup_beyond_support :
    localCoord (construct 2 1000 0 1) (7/8) 2 = 7/2 ∧
    ((2 * 2 - 1 : ℕ) : ℚ) < 7/2 ∧
    outsideSupport (construct 2 1000 0 1) (7/8) 2 = false ∧
    (getAllValues (construct 2 1000 0 1) gridSample (7/8)
      (List.replicate 5 0) (List.replicate 5 0)).values.getD 2 0 = 9/2 := by
  refine ⟨?_, by norm_num, ?_, ?_⟩
  · norm_num [localCoord, construct]
  · norm_num [outsideSupport, localCoord, construct]
  · norm_num [getAllValues, construct, checkIfArgumentInsideInterval, setAll, translateVal,
      outsideSupport, localCoord, gridSample, List.range', List.replicate]

/-- C2 (counterexample): with order 2 (five basis functions) and empty caller-supplied
vectors, the spec-side contract `getAllValuesChecked` demands an assertion-level
failure (`none`), but `getAllValues` — whose size assertions are commented out in the
source (lines 124-125) — proceeds and returns an ordinary result, so evaluation does
not fail on mismatched sizes. -/
theorem claim2_counterexample :
    getAllValuesChecked (construct 2 1000 0 1) gridSample (1/2) [] [] = none ∧
    getAllValues (construct 2 1000 0 1) gridSample (1/2) [] [] = ⟨1/2, true, [], []⟩ := by
  constructor
  · norm_num [getAllValuesChecked, construct]
  · norm_num [getAllValues, construct, checkIfArgumentInsideInterval, setAll, translateVal,
      outsideSupport, localCoord, gridSample, List.range']

/-- C2 (amended): `getAllValues` performs no size validation at all — the assertions
are commented out — so for caller-supplied vectors of any sizes it completes normally,
leaving the vector lengths unchanged (the out-of-range writes of the C++ code are
undefined behaviour, modelled as no-ops); only the spec-side `getAllValuesChecked`
contract signals mismatched sizes. -/
theorem claim2_no_size_check (bf : BFState) (grid : ℚ → ℚ × ℚ) (arg : ℚ)
    (v d : List ℚ) :
    (getAllValues bf grid arg v d).values.length = v.length ∧
    (getAllValues bf grid arg v d).derivs.length = d.length ∧
    (v.length ≠ bf.numberOfBasisFunctions ∨ d.length ≠ bf.numberOfBasisFunctions →
      getAllValuesChecked bf grid arg v d = none) := by
  refine ⟨getAllValues_values_length bf grid arg v d,
    getAllValues_derivs_length bf grid arg v d, ?_⟩
  intro h
  rw [getAllValuesChecked, if_neg]
  rcases h with h | h
  · exact fun hc => absurd hc.1 h
  · exact fun hc => absurd hc.2 h

/-- C2 (witness): concrete instance of the amended statement at empty vectors. -/
theorem claim2_amended_witness :
    (getAllValues (construct 2 1000 0 1) gridSample (1/2) [] []).values.length = 0 ∧
    (getAllValues (construct 2 1000 0 1) gridSample (1/2) [] []).derivs.length = 0 ∧
    getAllValuesChecked (construct 2 1000 0 1) gridSample (1/2) [] [] = none := by
  have h := claim2_no_size_check (construct 2 1000 0 1) gridSample (1/2) [] []
  exact ⟨h.1, h.2.1, h.2.2 (Or.inl (by decide))⟩

/-- C3 (counterexample): for order 63 and requested grid size 900 the true grid size
is `125 * 2^3 = 1000`, which differs from the requested 900, yet the constructor
reports nothing back (line 102 compares the true size against the literal `1000`,
not against the requested size), refuting the claim that the actual resolution is
reported back whenever it differs from the requested one. -/
theorem claim3_counterexample :
    trueGridSize 63 900 = 1000 ∧ (1000 : ℕ) ≠ 900 ∧
    (construct 63 900 0 1).reportedGridSize = none := by
  refine ⟨trueGridSize_63_900, by decide, ?_⟩
  show (if trueGridSize 63 900 ≠ 1000 then some (trueGridSize 63 900) else none) = none
  rw [trueGridSize_63_900]
  simp

/-- C3 (amended): the constructor reports the actual grid resolution back to the
configuration layer exactly when it differs from the literal default `1000` (not from
the requested size); whatever is reported is the true grid size, a number of the
dyadic form `(2N-1) * 2^n` that is at least the requested size. -/
theorem claim3_reporting (N R : ℕ) (mn mx : ℚ) (hN : 1 ≤ N) :
    ((construct N R mn mx).reportedGridSize = none ↔ trueGridSize N R = 1000) ∧
    (∀ G : ℕ, (construct N R mn mx).reportedGridSize = some G →
      G = trueGridSize N R ∧ G ≠ 1000 ∧ R ≤ G ∧ ∃ n : ℕ, G = (2 * N - 1) * 2 ^ n) := by
  have hrep : (construct N R mn mx).reportedGridSize
      = if trueGridSize N R ≠ 1000 then some (trueGridSize N R) else none := rfl
  constructor
  · rw [hrep]
    by_cases h : trueGridSize N R = 1000 <;> simp [h]
  · intro G hG
    rw [hrep] at hG
    by_cases h : trueGridSize N R = 1000
    · simp [h] at hG
    · simp only [h, ne_eq, not_false_eq_true, if_true, Option.some.injEq] at hG
      obtain ⟨n, h1, h2, _⟩ := gridDoubling_spec R (2 * N - 1) (by omega)
      refine ⟨hG.symm, by rw [hG] at h; exact h, ?_, ⟨n, ?_⟩⟩
      · rw [← hG]
        calc R ≤ (2 * N - 1) * 2 ^ n := h2
          _ = trueGridSize N R := h1.symm
      · rw [← hG]
        exact h1

/-- C3 (witness): the amended statement at order 4, requested size 1000, where the
true size 1792 differs from 1000 and is reported. -/
theorem claim3_amended_witness :
    ((construct 4 1000 0 1).reportedGridSize = none ↔ trueGridSize 4 1000 = 1000) ∧
    (∀ G : ℕ, (construct 4 1000 0 1).reportedGridSize = some G →
      G = trueGridSize 4 1000 ∧ G ≠ 1000 ∧ 1000 ≤ G ∧ ∃ n : ℕ, G = (2 * 4 - 1) * 2 ^ n) :=
  claim3_reporting 4 1000 0 1 (by decide)

/-- C4: for any argument strictly outside the user-visible interval `[mn, mx]` and
correctly sized vectors, `getAllValues` flags `insideRange = false`, still returns the
mapped argument, zeroes every entry of `derivs` (line 148), and leaves the `values`
entries at their computed magnitudes — the same per-index formula as for an in-range
argument, unaffected by the flag. -/
theorem claim4_outside_range (N R : ℕ) (mn mx arg : ℚ) (grid : ℚ → ℚ × ℚ)
    (v d : List ℚ)
    (hv : v.length = (construct N R mn mx).numberOfBasisFunctions)
    (hd : d.length = (construct N R mn mx).numberOfBasisFunctions)
    (hout : arg < mn ∨ mx < arg) :
    (getAllValues (construct N R mn mx) grid arg v d).insideRange = false ∧
    (getAllValues (construct N R mn mx) grid arg v d).argT = arg ∧
    (∀ j, j < 3 * N - 1 →
      (getAllValues (construct N R mn mx) grid arg v d).derivs.getD j 0 = 0) ∧
    (∀ j, j < 3 * N - 1 →
      (getAllValues (construct N R mn mx) grid arg v d).values.getD j 0 =
        if j = 0 then 1 else (translateVal (construct N R mn mx) grid arg j).1) := by
  have hnot : ¬(mn ≤ arg ∧ arg ≤ mx) := by
    rcases hout with h | h
    · exact fun hc => absurd hc.1 (not_le.mpr h)
    · exact fun hc => absurd hc.2 (not_le.mpr h)
  have hin : (checkIfArgumentInsideInterval (construct N R mn mx) arg).2 = false := by
    show decide ((construct N R mn mx).intervalMin ≤ arg
      ∧ arg ≤ (construct N R mn mx).intervalMax) = false
    exact decide_eq_false hnot
  refine ⟨hin, rfl, ?_, ?_⟩
  · intro j hj
    rw [getAllValues_derivs_getD _ _ _ _ _ hd j hj, hin]
    simp
  · intro j hj
    exact getAllValues_values_getD _ _ _ _ _ hv j hj

/-- C4 (witness): order 2 on `[0, 1]`, argument 2 strictly above the interval. -/
theorem claim4_witness :
    (getAllValues (construct 2 1000 0 1) gridSample 2
      (List.replicate 5 3) (List.replicate 5 3)).insideRange = false ∧
    (getAllValues (construct 2 1000 0 1) gridSample 2
      (List.replicate 5 3) (List.replicate 5 3)).argT = 2 ∧
    (∀ j, j < 3 * 2 - 1 →
      (getAllValues (construct 2 1000 0 1) gridSample 2
        (List.replicate 5 3) (List.replicate 5 3)).derivs.getD j 0 = 0) ∧
    (∀ j, j < 3 * 2 - 1 →
      (getAllValues (construct 2 1000 0 1) gridSample 2
        (List.replicate 5 3) (List.replicate 5 3)).values.getD j 0 =
        if j = 0 then 1 else (translateVal (construct 2 1000 0 1) gridSample 2 j).1) :=
  claim4_outside_range 2 1000 0 1 2 gridSample (List.replicate 5 3) (List.replicate 5 3)
    (by decide) (by decide) (Or.inr (by norm_num))

/-- C5: for every query argument, inside or outside the interval, `getAllValues`
sets `values[0] = 1` and `derivs[0] = 0` — the constant basis function (lines
129-130; the zeroing of line 148 leaves `derivs[0]` at `0`). -/
theorem claim5_constant_basis (N R : ℕ) (mn mx arg : ℚ) (grid : ℚ → ℚ × ℚ)
    (v d : List ℚ) (hN : 1 ≤ N)
    (hv : v.length = (construct N R mn mx).numberOfBasisFunctions)
    (hd : d.length = (construct N R mn mx).numberOfBasisFunctions) :
    (getAllValues (construct N R mn mx) grid arg v d).values.getD 0 0 = 1 ∧
    (getAllValues (construct N R mn mx) grid arg v d).derivs.getD 0 0 = 0 := by
  have h0 : (0 : ℕ) < (construct N R mn mx).numberOfBasisFunctions := by
    show 0 < 3 * N - 1
    omega
  constructor
  · rw [getAllValues_values_getD _ _ _ _ _ hv 0 h0]
    simp
  · rw [getAllValues_derivs_getD _ _ _ _ _ hd 0 h0]
    split <;> simp

/-- C5 (witness): order 2 on `[0, 1]` at the out-of-range argument 5. -/
theorem claim5_witness :
    (getAllValues (construct 2 1000 0 1) gridSample 5
      (List.replicate 5 3) (List.replicate 5 3)).values.getD 0 0 = 1 ∧
    (getAllValues (construct 2 1000 0 1) gridSample 5
      (List.replicate 5 3) (List.replicate 5 3)).derivs.getD 0 0 = 0 :=
  claim5_constant_basis 2 1000 0 1 5 gridSample (List.replicate 5 3) (List.replicate 5 3)
    (by decide) (by decide) (by decide)

/-- C6: for basis index `1 ≤ i < 3N-1` the evaluation uses the translation
`k = i - N` and the local coordinate `x = (arg - mn) * intervalDerivf - k`, with
`intervalDerivf` the interval-to-intrinsic factor `(3N-2)/(mx-mn)`; when `x` lies
inside the support `[0, 2N-1)`, `values[i]` is the tabulated value at `x` and — for
an in-range argument, whose derivatives are not zeroed by line 148 — `derivs[i]` is
the tabulated derivative at `x` times `intervalDerivf` (chain rule). -/
theorem claim6_translate_formula (N R : ℕ) (mn mx arg : ℚ) (grid : ℚ → ℚ × ℚ)
    (v d : List ℚ) (i : ℕ) (hN : 1 ≤ N)
    (hv : v.length = (construct N R mn mx).numberOfBasisFunctions)
    (hd : d.length = (construct N R mn mx).numberOfBasisFunctions)
    (hi1 : 1 ≤ i) (hi2 : i < 3 * N - 1)
    (hx0 : 0 ≤ localCoord (construct N R mn mx) arg i)
    (hx1 : localCoord (construct N R mn mx) arg i < ((2 * N - 1 : ℕ) : ℚ)) :
    (construct N R mn mx).intervalDerivf = ((3 * N - 2 : ℕ) : ℚ) / (mx - mn) ∧
    localCoord (construct N R mn mx) arg i
      = (arg - mn) * (construct N R mn mx).intervalDerivf - (((i : ℤ) - (N : ℤ) : ℤ) : ℚ) ∧
    (getAllValues (construct N R mn mx) grid arg v d).values.getD i 0
      = (grid (localCoord (construct N R mn mx) arg i)).1 ∧
    ((mn ≤ arg ∧ arg ≤ mx) →
      (getAllValues (construct N R mn mx) grid arg v d).derivs.getD i 0
        = (grid (localCoord (construct N R mn mx) arg i)).2
            * (construct N R mn mx).intervalDerivf) := by
  have hsub : (3 * N - 1 - 1 : ℕ) = 3 * N - 2 := by omega
  have hns : outsideSupport (construct N R mn mx) arg i = false := by
    rw [outsideSupport]
    have h1 : ¬ localCoord (construct N R mn mx) arg i < 0 := not_lt.mpr hx0
    have h2 : ¬ (construct N R mn mx).intrinsicIntervalMax
        < localCoord (construct N R mn mx) arg i := by
      apply not_lt.mpr
      apply le_of_lt
      apply lt_of_lt_of_le hx1
      have hle : (2 * N - 1 : ℕ) ≤ (3 * N - 1 - 1 : ℕ) := by omega
      show ((2 * N - 1 : ℕ) : ℚ) ≤ ((3 * N - 1 - 1 : ℕ) : ℚ)
      exact Nat.cast_le.mpr hle
    simp [h1, h2]
  have htv : translateVal (construct N R mn mx) grid arg i
      = ((grid (localCoord (construct N R mn mx) arg i)).1,
         (grid (localCoord (construct N R mn mx) arg i)).2
           * (construct N R mn mx).intervalDerivf) := by
    rw [translateVal, hns]
    simp
  refine ⟨?_, rfl, ?_, ?_⟩
  · show ((3 * N - 1 - 1 : ℕ) : ℚ) / (mx - mn) = _
    rw [hsub]
  · rw [getAllValues_values_getD _ _ _ _ _ hv i hi2, if_neg (by omega), htv]
  · intro hin
    have hchk : (checkIfArgumentInsideInterval (construct N R mn mx) arg).2 = true := by
      show decide ((construct N R mn mx).intervalMin ≤ arg
        ∧ arg ≤ (construct N R mn mx).intervalMax) = true
      exact decide_eq_true hin
    rw [getAllValues_derivs_getD _ _ _ _ _ hd i hi2, hchk, if_pos rfl, if_neg (by omega), htv]

/-- C6 (witness): order 2 on `[0, 1]`, argument `1/4`, index 2 (`k = 0`, `x = 1`). -/
theorem claim6_witness :
    (getAllValues (construct 2 1000 0 1) gridSample (1/4)
      (List.replicate 5 0) (List.replicate 5 0)).values.getD 2 0
      = (gridSample (localCoord (construct 2 1000 0 1) (1/4) 2)).1 ∧
    ((0 : ℚ) ≤ 1/4 ∧ (1/4 : ℚ) ≤ 1) ∧
    (getAllValues (construct 2 1000 0 1) gridSample (1/4)
      (List.replicate 5 0) (List.replicate 5 0)).derivs.getD 2 0
      = (gridSample (localCoord (construct 2 1000 0 1) (1/4) 2)).2
          * (construct 2 1000 0 1).intervalDerivf := by
  have hin : (0 : ℚ) ≤ 1/4 ∧ (1/4 : ℚ) ≤ 1 := by norm_num
  have h := claim6_translate_formula 2 1000 0 1 (1/4) gridSample
    (List.replicate 5 0) (List.replicate 5 0) 2 (by decide) (by decide) (by decide)
    (by decide) (by decide)
    (by norm_num [localCoord, construct])
    (by norm_num [localCoord, construct])
  exact ⟨h.2.2.1, hin, h.2.2.2 hin⟩

/-- C7: the constructor fixes the number of basis functions to `3N - 1` (line 94) —
nothing in the class mutates it afterwards, the state being read-only during
evaluation — and order 2 gives five basis functions. -/
theorem claim7_basisCount (N R : ℕ) (mn mx : ℚ) :
    (construct N R mn mx).numberOfBasisFunctions = 3 * N - 1 ∧
    (construct 2 R mn mx).numberOfBasisFunctions = 5 := ⟨rfl, rfl⟩

/-- C8: the true grid size is `(2N-1) * 2^n` for the least `n` making it at least the
requested size `R` (spec-modelled construction, `DbWaveletGrid::setupGrid` not being
under src/), and order 4 with requested size 1000 yields `7 * 256 = 1792`. -/
theorem claim8_trueGridSize (N R : ℕ) (hN : 1 ≤ N) :
    (∃ n : ℕ, trueGridSize N R = (2 * N - 1) * 2 ^ n ∧ R ≤ trueGridSize N R ∧
      ∀ m : ℕ, R ≤ (2 * N - 1) * 2 ^ m → n ≤ m) ∧
    trueGridSize 4 1000 = 1792 := by
  obtain ⟨n, h1, h2, h3⟩ := gridDoubling_spec R (2 * N - 1) (by omega)
  refine ⟨⟨n, h1, ?_, h3⟩, trueGridSize_4_1000⟩
  calc R ≤ (2 * N - 1) * 2 ^ n := h2
    _ = trueGridSize N R := h1.symm

/-- C8 (witness): the scenario `N = 4`, requested 1000, true size 1792. -/
theorem claim8_witness : 1 ≤ 4 ∧ trueGridSize 4 1000 = 1792 :=
  ⟨by decide, (claim8_trueGridSize 4 1000 (by decide)).2⟩

/-- C9: with correctly sized vectors, the result of `getAllValues` is independent of
the initial contents of the caller-supplied vectors: every entry of both outputs is
written before returning, so two calls with the same argument on the same state
produce identical mapped argument, flag, values and derivatives. -/
theorem claim9_initial_content_irrelevant (bf : BFState) (grid : ℚ → ℚ × ℚ)
    (arg : ℚ) (v d w e : List ℚ)
    (hv : v.length = bf.numberOfBasisFunctions)
    (hd : d.length = bf.numberOfBasisFunctions)
    (hw : w.length = bf.numberOfBasisFunctions)
    (he : e.length = bf.numberOfBasisFunctions) :
    getAllValues bf grid arg v d = getAllValues bf grid arg w e := by
  have hlenv : (getAllValues bf grid arg v d).values.length
      = (getAllValues bf grid arg w e).values.length := by
    rw [getAllValues_values_length, getAllValues_values_length, hv, hw]
  have hlend : (getAllValues bf grid arg v d).derivs.length
      = (getAllValues bf grid arg w e).derivs.length := by
    rw [getAllValues_derivs_length, getAllValues_derivs_length, hd, he]
  ext1
  · rfl
  · rfl
  · apply List.ext_getElem hlenv
    intro n h1 h2
    have hn : n < bf.numberOfBasisFunctions := by
      rw [getAllValues_values_length, hv] at h1
      exact h1
    rw [← List.getD_eq_getElem _ (0:ℚ) h1, ← List.getD_eq_getElem _ (0:ℚ) h2,
      getAllValues_values_getD _ _ _ _ _ hv n hn,
      getAllValues_values_getD _ _ _ _ _ hw n hn]
  · apply List.ext_getElem hlend
    intro n h1 h2
    have hn : n < bf.numberOfBasisFunctions := by
      rw [getAllValues_derivs_length, hd] at h1
      exact h1
    rw [← List.getD_eq_getElem _ (0:ℚ) h1, ← List.getD_eq_getElem _ (0:ℚ) h2,
      getAllValues_derivs_getD _ _ _ _ _ hd n hn,
      getAllValues_derivs_getD _ _ _ _ _ he n hn]

/-- C9 (witness): two calls with different junk contents agree. -/
theorem claim9_witness :
    getAllValues (construct 2 1000 0 1) gridSample (1/2)
      (List.replicate 5 7) (List.replicate 5 9)
    = getAllValues (construct 2 1000 0 1) gridSample (1/2)
      (List.replicate 5 0) (List.replicate 5 0) :=
  claim9_initial_content_irrelevant (construct 2 1000 0 1) gridSample (1/2)
    (List.replicate 5 7) (List.replicate 5 9) (List.replicate 5 0) (List.replicate 5 0)
    (by decide) (by decide) (by decide) (by decide)

/-- C10: the out-of-support test of line 137 is strict on both sides: the intrinsic
maximum is `3N - 2` (set at line 112 to the number of basis functions minus one), the
branch zeroes an entry exactly when `x < 0` or `x > 3N-2`, and at the exact boundary
coordinates `x = 0` and `x = 3N-2` the test is false, so a tabulated-function lookup
is performed there. -/
theorem claim10_strict_support_test (N R : ℕ) (mn mx arg : ℚ) (i : ℕ) (hN : 1 ≤ N) :
    (construct N R mn mx).intrinsicIntervalMax = ((3 * N - 2 : ℕ) : ℚ) ∧
    (outsideSupport (construct N R mn mx) arg i = true ↔
      (localCoord (construct N R mn mx) arg i < 0 ∨
        ((3 * N - 2 : ℕ) : ℚ) < localCoord (construct N R mn mx) arg i)) ∧
    ((localCoord (construct N R mn mx) arg i = 0 ∨
        localCoord (construct N R mn mx) arg i = ((3 * N - 2 : ℕ) : ℚ)) →
      outsideSupport (construct N R mn mx) arg i = false) := by
  have hmax : (construct N R mn mx).intrinsicIntervalMax = ((3 * N - 2 : ℕ) : ℚ) := by
    have h : (3 * N - 1 - 1 : ℕ) = 3 * N - 2 := by omega
    show ((3 * N - 1 - 1 : ℕ) : ℚ) = _
    rw [h]
  refine ⟨hmax, ?_, ?_⟩
  · rw [outsideSupport, hmax]
    simp
  · intro h
    rw [outsideSupport, hmax]
    rcases h with h0 | hm
    · rw [h0]
      simp
    · rw [hm]
      simp

/-- C10 (witness): order 2 on `[0, 1]`, argument 0, index 2: boundary coordinate
`x = 0`, lookup performed. -/
theorem claim10_witness :
    localCoord (construct 2 1000 0 1) 0 2 = 0 ∧
    outsideSupport (construct 2 1000 0 1) 0 2 = false := by
  have h0 : localCoord (construct 2 1000 0 1) 0 2 = 0 := by
    norm_num [localCoord, construct]
  exact ⟨h0, (claim10_strict_support_test 2 1000 0 1 0 2 (by norm_num)).2.2 (Or.inl h0)⟩

end PlumedVes
